import Mathlib

/-!
Verification of the RISC-V generation-based ASID allocator and TLB shootdown
glue (arch/riscv/mm/context.c, arch/riscv/mm/tlbflush.c and the asm headers),
as a shallow embedding: machine words are natural numbers reduced mod 2^64
where overflow matters, per-CPU atomics become lists indexed by CPU number,
cpumasks become finite sets of CPU numbers, and the two possibly
non-terminating IPI handler loops take explicit fuel.
The development targets a 64-bit build (`__riscv_xlen == 64`), so the
32-bit-only `asid_generation_overflow` fixup is not modelled and the
64-bit `BUG_ON(overflow)` is modelled as an `Option` failure.
-/

namespace RiscvAsid

/-- Kernel PAGE_SIZE: 4 KiB pages. -/
def PAGE_SIZE : Nat := 4096

/-- PTRS_PER_PTE on riscv64: 512 page-table entries per page table. -/
def PTRS_PER_PTE : Nat := 512

/-- Modulus of an `unsigned long` on a 64-bit build. -/
def WORD_SIZE : Nat := 2 ^ 64

/-- The sentinel `(unsigned long)-1` that marks a full flush in `struct tlbi`. -/
def SFENCE_VMA_FLUSH_ALL : Nat := 2 ^ 64 - 1

/-- ASIDMAX on a 64-bit build (`__riscv_xlen != 32`). -/
def ASIDMAX : Nat := 16

/-- GENMASK(ASIDMAX - 1, 0). -/
def ASIDMAX_MASK : Nat := 2 ^ ASIDMAX - 1

/-- The EINVAL errno value. -/
def EINVAL : Int := 22

/-- A local `sfence.vma` instruction, classified by its operands:
no operands (full untagged flush), ASID only, address only, or both. -/
inductive TlbOp where
  | flushAll : TlbOp
  | flushAsid : Nat → TlbOp
  | flushPage : Nat → TlbOp
  | flushPageAsid : Nat → Nat → TlbOp
deriving DecidableEq, Repr

/-- The on-stack IPI descriptor `struct tlbi` from tlbflush.c. -/
structure Tlbi where
  start : Nat
  size : Nat
  asid : Nat
deriving DecidableEq, Repr

/-- A remote-invalidation request as produced by `remote_sfence_vma` (sent to
every CPU, no ASID) or `remote_sfence_vma_asid` (sent to a cpumask, with an
ASID operand).  Both boot-selectable delivery methods (IPI and SBI) forward
exactly these fields, so the request record captures either delivery. -/
inductive FlushCall where
  | sfence : Nat → Nat → FlushCall
  | sfenceAsid : Finset Nat → Nat → Nat → Nat → FlushCall
deriving DecidableEq

/-- The mm context (`mm_context_t` from asm/mmu.h); `vdso` is irrelevant to
the core and omitted. -/
structure MmContext where
  asid : Nat
  icache_stale_mask : Finset Nat
  cache_mask : Finset Nat
deriving DecidableEq

/-- The slice of `struct mm_struct` the core reads: its arch context, the
`mm_cpumask` bitmap and the page-table root. -/
structure MmStruct where
  context : MmContext
  cpu_bitmap : Finset Nat
  pgd : Nat
deriving DecidableEq

/-- The loop of `ipi_remote_sfence_vma`:
`for (i = 0; i < size; i += PAGE_SIZE) sfence.vma (start + i);`
with wrapping `unsigned long` arithmetic, given explicit fuel.  The Bool
records whether the loop exited within the given fuel. -/
def sfence_vma_loop (start size : Nat) : Nat → Nat → List TlbOp × Bool
  | 0, _ => ([], false)
  | fuel + 1, i =>
    if i < size then
      let r := sfence_vma_loop start size fuel ((i + PAGE_SIZE) % WORD_SIZE)
      (TlbOp.flushPage ((start + i) % WORD_SIZE) :: r.1, r.2)
    else ([], true)

/-- The loop of `ipi_remote_sfence_vma_asid`, identical but with the ASID
operand on each page flush. -/
def sfence_vma_asid_loop (start size asid : Nat) : Nat → Nat → List TlbOp × Bool
  | 0, _ => ([], false)
  | fuel + 1, i =>
    if i < size then
      let r := sfence_vma_asid_loop start size asid fuel ((i + PAGE_SIZE) % WORD_SIZE)
      (TlbOp.flushPageAsid ((start + i) % WORD_SIZE) asid :: r.1, r.2)
    else ([], true)

/-- IPI handler `ipi_remote_sfence_vma`.  Note the source performs
`local_flush_tlb_all()` when `size == SFENCE_VMA_FLUSH_ALL` but does NOT
return, falling through into the page loop; the embedding mirrors that. -/
def ipi_remote_sfence_vma (data : Tlbi) (fuel : Nat) : List TlbOp × Bool :=
  let pre : List TlbOp :=
    if data.size = SFENCE_VMA_FLUSH_ALL then [TlbOp.flushAll] else []
  let r := sfence_vma_loop data.start data.size fuel 0
  (pre ++ r.1, r.2)

/-- IPI handler `ipi_remote_sfence_vma_asid`: on the full-flush sentinel it
issues a single `sfence.vma x0, asid` and returns; otherwise it runs the
page loop. -/
def ipi_remote_sfence_vma_asid (data : Tlbi) (fuel : Nat) : List TlbOp × Bool :=
  if data.size = SFENCE_VMA_FLUSH_ALL then ([TlbOp.flushAsid data.asid], true)
  else sfence_vma_asid_loop data.start data.size data.asid fuel 0

/-- `remote_sfence_vma`: package start/size and deliver to every CPU. -/
def remote_sfence_vma (start size : Nat) : FlushCall :=
  FlushCall.sfence start size

/-- `remote_sfence_vma_asid`: package start/size/asid and deliver to `mask`. -/
def remote_sfence_vma_asid (mask : Finset Nat) (start size asid : Nat) : FlushCall :=
  FlushCall.sfenceAsid mask start size asid

/-- `flush_tlb_all`. -/
def flush_tlb_all : FlushCall :=
  remote_sfence_vma 0 SFENCE_VMA_FLUSH_ALL

/-- `flush_tlb_mm`: the source broadcasts to `mm_cpumask(mm)` with the
literal ASID operand `0`. -/
def flush_tlb_mm (mm : MmStruct) : FlushCall :=
  remote_sfence_vma_asid mm.cpu_bitmap 0 SFENCE_VMA_FLUSH_ALL 0

/-- `flush_tlb_page`. -/
def flush_tlb_page (mm : MmStruct) (addr : Nat) : FlushCall :=
  remote_sfence_vma_asid mm.cpu_bitmap addr PAGE_SIZE 0

/-- `flush_tlb_range`; the static `tlbi_range_threshold` is passed
explicitly as the last argument. -/
def flush_tlb_range (mm : MmStruct) (start stop threshold : Nat) : FlushCall :=
  if stop - start > threshold then flush_tlb_mm mm
  else remote_sfence_vma_asid mm.cpu_bitmap start (stop - start) 0

/-- `flush_tlb_kernel_range`. -/
def flush_tlb_kernel_range (start stop threshold : Nat) : FlushCall :=
  if stop - start > threshold then flush_tlb_all
  else remote_sfence_vma start (stop - start)

/-- Boot-parameter handler `setup_tlbi_max_ops`.  `get_option` is modelled by
its result: `parsed = some v` when the string parses to the integer `v`, and
`none` when it does not (the C code then keeps `value = 0`).  Returns the C
return value together with the new `tlbi_range_threshold`. -/
def setup_tlbi_max_ops (parsed : Option Int) (threshold : Nat) : Int × Nat :=
  let value : Int := parsed.getD 0
  if value ≥ (PTRS_PER_PTE : Int) ∨ value < 1 then (-EINVAL, threshold)
  else (0, value.toNat * PAGE_SIZE)

/-- `cpumask_empty` from the kernel cpumask API: a pure test for emptiness,
with no side effect on the mask. -/
def cpumask_empty (m : Finset Nat) : Bool := decide (m = ∅)

/-- `init_new_context` from asm/mmu_context.h.  The source stores 0 into the
ASID slot and then calls `cpumask_empty(&mm->context.cache_mask)` whose
result is discarded; neither mask is modified.  Returns the updated mm and
the C return value. -/
def init_new_context (mm : MmStruct) : MmStruct × Int :=
  let mm2 : MmStruct := { mm with context := { mm.context with asid := 0 } }
  let _ := cpumask_empty mm2.context.cache_mask
  (mm2, 0)

/-- The C expression `x &~ ASID_MASK` (clear the low `asidlen` bits),
written with shifts since Nat has no finite complement. -/
def clear_asid_bits (asidlen x : Nat) : Nat := x >>> asidlen <<< asidlen

/-- Global state of the ASID allocator from context.c: the detected ASID
width, the generation counter, the free bitmap (`asid_map`), the static
probe hint `cur_idx` of `alloc_asid`, and the two per-CPU variables as
CPU-indexed lists. -/
structure AsidState where
  asidlen : Nat
  asid_generation : Nat
  asid_map : List Bool
  cur_idx : Nat
  active_asids : List Nat
  reserved_asids : List Nat
deriving DecidableEq

/-- `check_reserved_asid`: walk every reserved slot, rewriting every copy of
`asid` to `newasid` (the loop never exits early), and report whether any
copy was found. -/
def check_reserved_asid (reserved : List Nat) (asid newasid : Nat) :
    List Nat × Bool :=
  ((reserved.map fun r => if r = asid then newasid else r),
   reserved.any fun r => r == asid)

/-- The per-CPU loop of `new_asid_generation`: exchange each CPU's
`active_asids` with 0, fall back to its `reserved_asids` when the exchanged
value is 0, set the low-bits entry in the bitmap, and store the value back
into `reserved_asids`. -/
def rollover_cpus (asidlen : Nat) :
    List Nat → List Nat → List Bool → List Nat × List Nat × List Bool
  | a :: acts, r :: rsvs, map =>
    let a2 := if a = 0 then r else a
    let map2 := map.set (a2 &&& (2 ^ asidlen - 1)) true
    let rest := rollover_cpus asidlen acts rsvs map2
    (0 :: rest.1, a2 :: rest.2.1, rest.2.2)
  | _, _, map => ([], [], map)

/-- `new_asid_generation` on a 64-bit build: advance the generation
(`none` models the `BUG_ON` on overflow of the word-sized counter), clear
the bitmap, and run the per-CPU reservation loop.  The trailing
`flush_tlb_all()` is a TLB effect, represented by `flush_tlb_all` above and
not part of the allocator state. -/
def new_asid_generation (s : AsidState) : Option AsidState :=
  if WORD_SIZE ≤ s.asid_generation + 2 ^ s.asidlen then none
  else
    let map0 := List.replicate (2 ^ s.asidlen) false
    let res := rollover_cpus s.asidlen s.active_asids s.reserved_asids map0
    some { s with
      asid_generation := s.asid_generation + 2 ^ s.asidlen
      active_asids := res.1
      reserved_asids := res.2.1
      asid_map := res.2.2 }

/-- `find_next_zero_bit(map, size, offset)`: index of the first clear bit at
or after `offset`, or `size` when there is none. -/
def find_next_zero_bit (map : List Bool) (size offset : Nat) : Nat :=
  match (List.range size).find? fun i => decide (offset ≤ i) && !(map.getD i true) with
  | some i => i
  | none => size

/-- The `set_asid` tail of `alloc_asid`: claim the bit, update the probe
hint, and return `asid | generation`. -/
def set_asid_tail (s : AsidState) (generation asid : Nat) : AsidState × Nat :=
  ({ s with asid_map := s.asid_map.set asid true, cur_idx := asid },
   asid ||| generation)

/-- The probing part of `alloc_asid`, after the reserved-ASID early return:
linear-probe the bitmap from `cur_idx`; on exhaustion start a new generation,
re-read the generation, and probe again from 1 (`BUG_ON` when even that
fails, modelled as `none`). -/
def alloc_asid_probe (s1 : AsidState) (generation : Nat) : Option (AsidState × Nat) :=
  if find_next_zero_bit s1.asid_map (2 ^ s1.asidlen) s1.cur_idx ≠ 2 ^ s1.asidlen then
    some (set_asid_tail s1 generation
      (find_next_zero_bit s1.asid_map (2 ^ s1.asidlen) s1.cur_idx))
  else
    match new_asid_generation s1 with
    | none => none
    | some s2 =>
      if find_next_zero_bit s2.asid_map (2 ^ s2.asidlen) 1 = 2 ^ s2.asidlen then none
      else some (set_asid_tail s2 s2.asid_generation
        (find_next_zero_bit s2.asid_map (2 ^ s2.asidlen) 1))

/-- `alloc_asid(mm)` run under `cpu_asid_lock`; `mm_asid` is the value read
from `mm->context.asid`.  If that value is non-zero and still pinned in some
CPU's reserved slot, the same low bits are carried into the current
generation; otherwise the free bitmap is probed.  Returns the updated
allocator state and the allocated `generation | asid` word, or `none` on
one of the two `BUG` paths. -/
def alloc_asid (s : AsidState) (mm_asid : Nat) : Option (AsidState × Nat) :=
  let generation := s.asid_generation
  if mm_asid ≠ 0 then
    let newasid := generation ||| (mm_asid &&& (2 ^ s.asidlen - 1))
    let chk := check_reserved_asid s.reserved_asids mm_asid newasid
    let s1 : AsidState := { s with reserved_asids := chk.1 }
    if chk.2 then some (s1, newasid)
    else alloc_asid_probe s1 generation
  else alloc_asid_probe s generation

/-- `asids_init` on the boot CPU, given the hardware ASID width and the
number of possible CPUs.  `none` models the two paths that leave ASIDs
disabled (`asidlen == 0`, and the headroom check); otherwise the allocator
state right after initialisation: first generation published, the probe
hint at its static initial value 1, every CPU's `active_asids` at the
boot-time `ASID_MASK` value, and the corresponding bitmap bit claimed.
The bitmap-allocation-failure panic is not modelled. -/
def asids_init (hw_asidlen ncpus : Nat) : Option AsidState :=
  if hw_asidlen = 0 then none
  else if 2 ^ hw_asidlen - 1 ≤ ncpus then none
  else some
    { asidlen := hw_asidlen
      asid_generation := 2 ^ hw_asidlen
      asid_map := (List.replicate (2 ^ hw_asidlen) false).set (2 ^ hw_asidlen - 1) true
      cur_idx := 1
      active_asids := List.replicate ncpus (2 ^ hw_asidlen - 1)
      reserved_asids := List.replicate ncpus 0 }

/-- `verify_cpu_asidlen` for a non-boot CPU: `asidlen` is the boot-chosen
global, `cpu_asidlen` the width `get_cpu_asidlen()` reads on this CPU.
First component: the panic payload `(cpu id, cpu width, boot width)` when
the function panics, `none` otherwise.  Second component: whether the
SATP ASID field was cleared (the early-return path taken when ASIDs are
disabled, which never reads the CPU's width). -/
def verify_cpu_asidlen (asidlen cpu_asidlen cpu_id : Nat) :
    Option (Nat × Nat × Nat) × Bool :=
  if asidlen = 0 then (none, true)
  else if cpu_asidlen ≠ asidlen then (some (cpu_id, cpu_asidlen, asidlen), false)
  else (none, false)

/-- The value written to the SATP CSR, split into its fields; the constant
SATP_MODE bits are elided. -/
structure SatpVal where
  pfn : Nat
  asid_field : Nat
deriving DecidableEq

/-- The shared tail of `switch_mm_asid` (label `switch_mm_fast`): mark the
CPU in `next`'s `cache_mask` and write SATP with the low ASIDMAX bits of
the ASID word. -/
def switch_mm_fast_tail (next : MmStruct) (cpu asid : Nat) : MmStruct × SatpVal :=
  ({ next with context :=
      { next.context with cache_mask := insert cpu next.context.cache_mask } },
   ⟨next.pgd, asid &&& ASIDMAX_MASK⟩)

/-- `switch_mm_asid` in a sequential interleaving: the relaxed cmpxchg on
`active_asids[cpu]` cannot race here, so the fast path is taken exactly when
the freshly read `old_active_asid` is non-zero and the generation bits of
`next`'s ASID slot match `asid_generation`; otherwise the slow path re-reads
the slot under the lock and reallocates when the generation still
mismatches.  `none` propagates the `BUG` paths of `alloc_asid`. -/
def switch_mm_asid (s : AsidState) (next : MmStruct) (cpu : Nat) :
    Option (AsidState × MmStruct × SatpVal) :=
  let asid := next.context.asid
  let old_active := s.active_asids.getD cpu 0
  if old_active ≠ 0 ∧ clear_asid_bits s.asidlen asid = s.asid_generation then
    let s1 : AsidState := { s with active_asids := s.active_asids.set cpu asid }
    let tail := switch_mm_fast_tail next cpu asid
    some (s1, tail.1, tail.2)
  else
    let asid2 := next.context.asid
    if clear_asid_bits s.asidlen asid2 ≠ s.asid_generation then
      match alloc_asid s asid2 with
      | none => none
      | some (s2, asid3) =>
        let next2 : MmStruct := { next with context :=
          { next.context with cache_mask := next.cpu_bitmap, asid := asid3 } }
        let s3 : AsidState :=
          { s2 with active_asids := s2.active_asids.set cpu asid3 }
        let tail := switch_mm_fast_tail next2 cpu asid3
        some (s3, tail.1, tail.2)
    else
      let s3 : AsidState :=
        { s with active_asids := s.active_asids.set cpu asid2 }
      let tail := switch_mm_fast_tail next cpu asid2
      some (s3, tail.1, tail.2)

/-- `switch_mm_noasid`: move the CPU between the two `cache_mask`s, write
SATP with ASID field 0, and locally flush `next`'s mm (a `sfence.vma x0, a`
with `a = ASID(next)`, which is `next`'s slot masked to ASIDMAX bits). -/
def switch_mm_noasid (prev next : MmStruct) (cpu : Nat) :
    MmStruct × MmStruct × SatpVal × TlbOp :=
  let prev2 : MmStruct := { prev with context :=
    { prev.context with cache_mask := prev.context.cache_mask.erase cpu } }
  let next2 : MmStruct := { next with context :=
    { next.context with cache_mask := insert cpu next.context.cache_mask } }
  (prev2, next2, ⟨next.pgd, 0⟩,
   TlbOp.flushAsid (next.context.asid &&& ASIDMAX_MASK))

/-- `flush_icache_deferred`: test-and-clear this CPU's bit in the stale
mask; the Bool records whether a local icache invalidation was issued. -/
def flush_icache_deferred (mm : MmStruct) (cpu : Nat) : MmStruct × Bool :=
  if cpu ∈ mm.context.icache_stale_mask then
    ({ mm with context := { mm.context with
        icache_stale_mask := mm.context.icache_stale_mask.erase cpu } }, true)
  else (mm, false)

/-- `switch_mm` for two distinct address spaces (the source returns
immediately when `prev == next`, a pointer comparison with no effect, so
only the `prev != next` case is embedded): move the CPU between the two
`mm_cpumask`s, take the ASID or the no-ASID path, then run the deferred
icache flush on `next`.  Returns the new allocator state, `prev`, `next`
and the written SATP value. -/
def switch_mm (s : AsidState) (prev next : MmStruct) (cpu : Nat) :
    Option (AsidState × MmStruct × MmStruct × SatpVal) :=
  let prev1 : MmStruct := { prev with cpu_bitmap := prev.cpu_bitmap.erase cpu }
  let next1 : MmStruct := { next with cpu_bitmap := insert cpu next.cpu_bitmap }
  if s.asidlen ≠ 0 then
    match switch_mm_asid s next1 cpu with
    | none => none
    | some (s2, next2, satp) =>
      let fin := flush_icache_deferred next2 cpu
      some (s2, prev1, fin.1, satp)
  else
    let res := switch_mm_noasid prev1 next1 cpu
    let fin := flush_icache_deferred res.2.1 cpu
    some (s, res.1, fin.1, res.2.2.1)

/-! Helper lemmas about machine-word bit operations and list primitives. -/

theorem lor_eq_add {n g x : Nat} (hg : g % 2 ^ n = 0) (hx : x < 2 ^ n) :
    g ||| x = g + x := by
  obtain ⟨q, hq⟩ := Nat.dvd_of_mod_eq_zero hg
  subst hq
  apply Nat.eq_of_testBit_eq
  intro j
  rw [Nat.testBit_or, Nat.testBit_mul_pow_two_add q hx j]
  by_cases hj : j < n
  · have hhigh : (2 ^ n * q).testBit j = false := by
      rw [Nat.testBit_mul_pow_two]
      simp [Nat.not_le_of_lt hj]
    simp [hj, hhigh]
  · have hlow : x.testBit j = false :=
      Nat.testBit_lt_two_pow
        (lt_of_lt_of_le hx (Nat.pow_le_pow_right (by norm_num) (by omega)))
    rw [Nat.testBit_mul_pow_two]
    simp [hj, hlow, Nat.le_of_not_lt hj]

theorem lor_low_mod {n g x : Nat} (hg : g % 2 ^ n = 0) (hx : x < 2 ^ n) :
    (g ||| x) % 2 ^ n = x := by
  obtain ⟨q, hq⟩ := Nat.dvd_of_mod_eq_zero hg
  rw [lor_eq_add hg hx, hq, Nat.mul_add_mod, Nat.mod_eq_of_lt hx]

theorem lor_high_div {n g x : Nat} (hg : g % 2 ^ n = 0) (hx : x < 2 ^ n) :
    (g ||| x) / 2 ^ n = g / 2 ^ n := by
  obtain ⟨q, hq⟩ := Nat.dvd_of_mod_eq_zero hg
  rw [lor_eq_add hg hx, hq, Nat.mul_add_div (Nat.two_pow_pos n),
    Nat.div_eq_of_lt hx, Nat.mul_div_cancel_left q (Nat.two_pow_pos n)]
  omega

theorem getD_ne_default {l : List Bool} {i : Nat} {d : Bool}
    (h : l.getD i d ≠ d) : i < l.length := by
  by_contra hc
  rw [List.getD_eq_getElem?_getD, List.getElem?_eq_none (by omega)] at h
  simp at h

theorem getD_eq_elem {l : List Bool} {i : Nat} (h : i < l.length) (d : Bool) :
    l.getD i d = l[i] := by
  rw [List.getD_eq_getElem?_getD, List.getElem?_eq_getElem h]
  rfl

theorem getD_set_true_self {l : List Bool} {i : Nat} (h : i < l.length) :
    (l.set i true).getD i false = true := by
  rw [List.getD_eq_getElem?_getD, List.getElem?_set_self h]
  rfl

theorem getD_set_true_mono {l : List Bool} {idx j : Nat}
    (h : l.getD j false = true) : (l.set idx true).getD j false = true := by
  rcases eq_or_ne idx j with rfl | hne
  · exact getD_set_true_self (@getD_ne_default l idx false (by rw [h]; simp))
  · rw [List.getD_eq_getElem?_getD, List.getElem?_set_ne hne,
      ← List.getD_eq_getElem?_getD]
    exact h

theorem find_next_zero_bit_le (map : List Bool) (size offset : Nat) :
    find_next_zero_bit map size offset ≤ size := by
  unfold find_next_zero_bit
  cases h : (List.range size).find? fun i => decide (offset ≤ i) && !(map.getD i true) with
  | none => simp
  | some i =>
    simpa using Nat.le_of_lt (List.mem_range.mp (List.mem_of_find?_eq_some h))

theorem find_next_zero_bit_spec {map : List Bool} {size offset : Nat}
    (h : find_next_zero_bit map size offset ≠ size) :
    find_next_zero_bit map size offset < size ∧
    offset ≤ find_next_zero_bit map size offset ∧
    map.getD (find_next_zero_bit map size offset) true = false := by
  revert h
  unfold find_next_zero_bit
  cases hf : (List.range size).find? fun i => decide (offset ≤ i) && !(map.getD i true) with
  | none => intro h; exact absurd rfl h
  | some i =>
    intro _
    have hmem := List.mem_range.mp (List.mem_of_find?_eq_some hf)
    have hp := List.find?_some hf
    simp only [Bool.and_eq_true, decide_eq_true_eq, Bool.not_eq_eq_eq_not,
      Bool.not_true] at hp
    exact ⟨hmem, hp.1, hp.2⟩

theorem word_size_eq : WORD_SIZE = 18446744073709551616 := by
  norm_num [WORD_SIZE]

theorem flush_all_sentinel_eq : SFENCE_VMA_FLUSH_ALL = 18446744073709551615 := by
  norm_num [SFENCE_VMA_FLUSH_ALL]

theorem sfence_vma_loop_succ (start size fuel i : Nat) :
    sfence_vma_loop start size (fuel + 1) i =
      if i < size then
        (TlbOp.flushPage ((start + i) % WORD_SIZE) ::
          (sfence_vma_loop start size fuel ((i + PAGE_SIZE) % WORD_SIZE)).1,
         (sfence_vma_loop start size fuel ((i + PAGE_SIZE) % WORD_SIZE)).2)
      else ([], true) := rfl

theorem sfence_vma_asid_loop_succ (start size asid fuel i : Nat) :
    sfence_vma_asid_loop start size asid (fuel + 1) i =
      if i < size then
        (TlbOp.flushPageAsid ((start + i) % WORD_SIZE) asid ::
          (sfence_vma_asid_loop start size asid fuel ((i + PAGE_SIZE) % WORD_SIZE)).1,
         (sfence_vma_asid_loop start size asid fuel ((i + PAGE_SIZE) % WORD_SIZE)).2)
      else ([], true) := rfl

/-- Characterisation of the tagged page-flush loop for an exact page count
`m` and a range that fits below the word size: it exits and issues exactly
one tagged invalidation per page. -/
theorem sfence_vma_asid_loop_spec (start size asid : Nat) :
    ∀ m i, size ≤ i + m * PAGE_SIZE →
      (m = 0 ∨ i + (m - 1) * PAGE_SIZE < size) →
      i + m * PAGE_SIZE < WORD_SIZE →
      start + size ≤ WORD_SIZE →
      sfence_vma_asid_loop start size asid (m + 1) i =
        ((List.range m).map fun k => TlbOp.flushPageAsid (start + i + k * PAGE_SIZE) asid,
         true) := by
  intro m
  induction m with
  | zero =>
    intro i h1 _ _ _
    have hlt : ¬ i < size := by omega
    simp [sfence_vma_asid_loop, hlt]
  | succ m ih =>
    intro i h1 h2 h3 h4
    have hPS : PAGE_SIZE = 4096 := rfl
    have hi : i < size := by
      rcases h2 with h2 | h2
      · omega
      · rw [hPS] at h2 ; omega
    have hiw : i + PAGE_SIZE < WORD_SIZE := by rw [hPS] at h3 ⊢ ; omega
    have hstart : start + i < WORD_SIZE := by omega
    have htail := ih (i + PAGE_SIZE)
      (by rw [hPS] at h1 ⊢ ; omega)
      (by rcases Nat.eq_zero_or_pos m with hm | hm
          · exact Or.inl hm
          · right; rw [hPS] at h2 ⊢ ; omega)
      (by rw [hPS] at h3 ⊢ ; omega) h4
    rw [sfence_vma_asid_loop_succ, if_pos hi, Nat.mod_eq_of_lt hiw,
      Nat.mod_eq_of_lt hstart, htail]
    dsimp only
    simp only [Prod.mk.injEq, and_true]
    rw [List.range_succ_eq_map, List.map_cons, List.map_map]
    have hfun :
        List.map ((fun k => TlbOp.flushPageAsid (start + i + k * PAGE_SIZE) asid) ∘ Nat.succ)
            (List.range m)
          = List.map (fun k => TlbOp.flushPageAsid (start + (i + PAGE_SIZE) + k * PAGE_SIZE) asid)
            (List.range m) := by
      apply List.map_congr_left
      intro k _
      simp only [Function.comp_apply]
      congr 1
      simp only [Nat.succ_eq_add_one]
      ring
    rw [hfun]
    simp

/-- The untagged page loop never exits when `size` is the full-flush
sentinel: every reachable index is a multiple of PAGE_SIZE below 2^64, and
every such index is strictly below 2^64 - 1. -/
theorem sfence_vma_loop_all_never_exits (start : Nat) :
    ∀ fuel i, PAGE_SIZE ∣ i → i < WORD_SIZE →
      (sfence_vma_loop start SFENCE_VMA_FLUSH_ALL fuel i).2 = false := by
  intro fuel
  induction fuel with
  | zero => intro i _ _; rfl
  | succ fuel ih =>
    intro i hdvd hlt
    have hPS : PAGE_SIZE = 4096 := rfl
    have hi : i < SFENCE_VMA_FLUSH_ALL := by
      rw [word_size_eq] at hlt
      rw [flush_all_sentinel_eq]
      rw [hPS] at hdvd
      omega
    have hdvd2 : PAGE_SIZE ∣ (i + PAGE_SIZE) % WORD_SIZE := by
      have hw : PAGE_SIZE ∣ WORD_SIZE := ⟨2 ^ 52, by norm_num [PAGE_SIZE, WORD_SIZE]⟩
      exact (Nat.dvd_mod_iff hw).mpr (Nat.dvd_add hdvd dvd_rfl)
    have hlt2 : (i + PAGE_SIZE) % WORD_SIZE < WORD_SIZE :=
      Nat.mod_lt _ (by rw [word_size_eq]; omega)
    rw [sfence_vma_loop_succ, if_pos hi]
    exact ih _ hdvd2 hlt2

/-- Behaviour of the per-CPU rollover loop: bitmap length is preserved,
already-set bitmap bits stay set, and each CPU whose active slot was
non-zero has that value moved to its reserved slot, its low bits claimed
in the bitmap, and its active slot zeroed. -/
theorem rollover_cpus_spec (A : Nat) :
    ∀ (acts rsvs : List Nat) (map : List Bool),
      acts.length = rsvs.length → map.length = 2 ^ A →
      (rollover_cpus A acts rsvs map).2.2.length = 2 ^ A
      ∧ (∀ j, map.getD j false = true →
          (rollover_cpus A acts rsvs map).2.2.getD j false = true)
      ∧ (∀ k, k < acts.length → acts.getD k 0 ≠ 0 →
          (rollover_cpus A acts rsvs map).2.1.getD k 0 = acts.getD k 0
          ∧ (rollover_cpus A acts rsvs map).2.2.getD (acts.getD k 0 % 2 ^ A) false = true
          ∧ (rollover_cpus A acts rsvs map).1.getD k 0 = 0) := by
  intro acts
  induction acts with
  | nil =>
    intro rsvs map _ hml
    refine ⟨?_, ?_, ?_⟩
    · simpa [rollover_cpus] using hml
    · intro j hj; simpa [rollover_cpus] using hj
    · intro k hk ha; simp at hk
  | cons a acts ih =>
    intro rsvs map hlen hml
    cases rsvs with
    | nil => simp at hlen
    | cons r rsvs =>
      have hlen2 : acts.length = rsvs.length := by simpa using hlen
      have hset_len :
          (map.set ((if a = 0 then r else a) &&& (2 ^ A - 1)) true).length = 2 ^ A := by
        simpa using hml
      obtain ⟨ih1, ih2, ih3⟩ :=
        ih rsvs (map.set ((if a = 0 then r else a) &&& (2 ^ A - 1)) true) hlen2 hset_len
      have hstep : rollover_cpus A (a :: acts) (r :: rsvs) map =
          (0 :: (rollover_cpus A acts rsvs
              (map.set ((if a = 0 then r else a) &&& (2 ^ A - 1)) true)).1,
           (if a = 0 then r else a) :: (rollover_cpus A acts rsvs
              (map.set ((if a = 0 then r else a) &&& (2 ^ A - 1)) true)).2.1,
           (rollover_cpus A acts rsvs
              (map.set ((if a = 0 then r else a) &&& (2 ^ A - 1)) true)).2.2) := rfl
      rw [hstep]
      refine ⟨ih1, ?_, ?_⟩
      · intro j hj
        exact ih2 j (getD_set_true_mono hj)
      · intro k hk ha
        cases k with
        | zero =>
          simp only [List.getD_cons_zero] at ha ⊢
          have ha2 : (if a = 0 then r else a) = a := by simp [ha]
          refine ⟨ha2, ?_, trivial⟩
          have hbit : (map.set ((if a = 0 then r else a) &&& (2 ^ A - 1)) true).getD
              (a % 2 ^ A) false = true := by
            have hidx : (if a = 0 then r else a) &&& (2 ^ A - 1) = a % 2 ^ A := by
              rw [ha2, Nat.and_pow_two_sub_one_eq_mod]
            rw [hidx]
            exact getD_set_true_self
              (by rw [hml]; exact Nat.mod_lt _ (Nat.two_pow_pos A))
          exact ih2 _ hbit
        | succ k =>
          simp only [List.getD_cons_succ] at ha ⊢
          exact ih3 k (by simpa using hk) ha

theorem check_reserved_no_hit {reserved : List Nat} {asid newasid : Nat}
    (hz : ∀ r ∈ reserved, r = 0) (ha : asid ≠ 0) :
    (check_reserved_asid reserved asid newasid).2 = false := by
  simp only [check_reserved_asid]
  rw [List.any_eq_false]
  intro x hx
  simp [hz x hx, Ne.symm ha]

theorem new_asid_generation_fields {s s2 : AsidState}
    (h : new_asid_generation s = some s2) :
    s2.asidlen = s.asidlen
    ∧ s2.asid_generation = s.asid_generation + 2 ^ s.asidlen := by
  unfold new_asid_generation at h
  split at h
  · cases h
  · obtain rfl := Option.some.inj h
    exact ⟨rfl, rfl⟩

/-- The probing part of `alloc_asid` never hands out low bits 0: the probe
starts at `cur_idx ≥ 1` (respectively at 1 after a rollover) and the
generation word has zero low bits. -/
theorem alloc_asid_probe_low_bits_nonzero
    (s1 : AsidState) (generation : Nat)
    (hcur : 1 ≤ s1.cur_idx)
    (hg : generation % 2 ^ s1.asidlen = 0)
    (hg2 : s1.asid_generation % 2 ^ s1.asidlen = 0) :
    ∀ p, alloc_asid_probe s1 generation = some p →
      p.2 % 2 ^ s1.asidlen ≠ 0 := by
  intro p hp
  unfold alloc_asid_probe at hp
  split at hp
  next hfind =>
    obtain ⟨hlt, hge, _⟩ := find_next_zero_bit_spec hfind
    obtain rfl := Option.some.inj hp
    show (find_next_zero_bit s1.asid_map (2 ^ s1.asidlen) s1.cur_idx |||
      generation) % 2 ^ s1.asidlen ≠ 0
    rw [Nat.lor_comm, lor_low_mod hg hlt]
    omega
  next hfind =>
    cases hng : new_asid_generation s1 with
    | none => rw [hng] at hp; cases hp
    | some s2 =>
      rw [hng] at hp
      dsimp only at hp
      obtain ⟨hlen, hgen⟩ := new_asid_generation_fields hng
      split at hp
      next => cases hp
      next hfind2 =>
        obtain ⟨hlt2, hge2, _⟩ := find_next_zero_bit_spec hfind2
        obtain rfl := Option.some.inj hp
        show (find_next_zero_bit s2.asid_map (2 ^ s2.asidlen) 1 |||
          s2.asid_generation) % 2 ^ s1.asidlen ≠ 0
        have hgmod : s2.asid_generation % 2 ^ s1.asidlen = 0 := by
          rw [hgen, Nat.add_mod_right]
          exact hg2
        have hlt2A : find_next_zero_bit s2.asid_map (2 ^ s2.asidlen) 1
            < 2 ^ s1.asidlen := by rw [← hlen]; exact hlt2
        rw [Nat.lor_comm, lor_low_mod hgmod hlt2A]
        omega

/-- While the generation is still the boot generation `2^A`, the probe never
returns the all-ones low bits: the boot bitmap bit stays claimed, and a
probe that rolls over returns a value in generation `2·2^A`. -/
theorem alloc_asid_probe_first_gen
    (s1 : AsidState) (generation : Nat)
    (hgen : generation = 2 ^ s1.asidlen)
    (hsgen : s1.asid_generation = 2 ^ s1.asidlen)
    (hboot : s1.asid_map.getD (2 ^ s1.asidlen - 1) false = true) :
    ∀ p, alloc_asid_probe s1 generation = some p →
      p.2 / 2 ^ s1.asidlen = 1 →
      p.2 % 2 ^ s1.asidlen ≠ 2 ^ s1.asidlen - 1 := by
  intro p hp
  unfold alloc_asid_probe at hp
  split at hp
  next hfind =>
    obtain ⟨hlt, _, hclear⟩ := find_next_zero_bit_spec hfind
    obtain rfl := Option.some.inj hp
    intro _
    show (find_next_zero_bit s1.asid_map (2 ^ s1.asidlen) s1.cur_idx |||
      generation) % 2 ^ s1.asidlen ≠ 2 ^ s1.asidlen - 1
    rw [hgen, Nat.lor_comm, lor_low_mod (Nat.mod_self _) hlt]
    intro heq
    have hlen2 : 2 ^ s1.asidlen - 1 < s1.asid_map.length :=
      @getD_ne_default s1.asid_map _ false (by rw [hboot]; simp)
    rw [heq] at hclear
    rw [getD_eq_elem hlen2] at hclear
    rw [getD_eq_elem hlen2] at hboot
    rw [hclear] at hboot
    cases hboot
  next hfind =>
    cases hng : new_asid_generation s1 with
    | none => rw [hng] at hp; cases hp
    | some s2 =>
      rw [hng] at hp
      dsimp only at hp
      obtain ⟨hlen, hgen2⟩ := new_asid_generation_fields hng
      split at hp
      next => cases hp
      next hfind2 =>
        obtain ⟨hlt2, _, _⟩ := find_next_zero_bit_spec hfind2
        obtain rfl := Option.some.inj hp
        intro hdiv
        exfalso
        have hgmod : s2.asid_generation % 2 ^ s1.asidlen = 0 := by
          rw [hgen2, Nat.add_mod_right, hsgen, Nat.mod_self]
        have hlt2A : find_next_zero_bit s2.asid_map (2 ^ s2.asidlen) 1
            < 2 ^ s1.asidlen := by rw [← hlen]; exact hlt2
        have hdiv2 : (set_asid_tail s2 s2.asid_generation
            (find_next_zero_bit s2.asid_map (2 ^ s2.asidlen) 1)).2
              / 2 ^ s1.asidlen = 2 := by
          show (find_next_zero_bit s2.asid_map (2 ^ s2.asidlen) 1 |||
            s2.asid_generation) / 2 ^ s1.asidlen = 2
          rw [Nat.lor_comm, lor_high_div hgmod hlt2A, hgen2, hsgen,
            Nat.add_div_right _ (Nat.two_pow_pos _),
            Nat.div_self (Nat.two_pow_pos _)]
        omega

/-! Claim theorems. -/

/-- C1: the claim says `flush_tlb_mm(as)` broadcasts a full flush tagged with
the address space's currently assigned ASID.  The code instead passes the
literal tag 0 to `remote_sfence_vma_asid`: for an mm whose slot carries ASID
5, the broadcast descriptor carries tag 0, not 5. -/
theorem flush_tlb_mm_sends_zero_tag :
    flush_tlb_mm ⟨⟨2 ^ 16 + 5, ∅, ∅⟩, {0, 1}, 0⟩
      = FlushCall.sfenceAsid {0, 1} 0 SFENCE_VMA_FLUSH_ALL 0
    ∧ (⟨⟨2 ^ 16 + 5, ∅, ∅⟩, {0, 1}, 0⟩ : MmStruct).context.asid &&& (2 ^ 16 - 1) = 5
    ∧ (0 : Nat) ≠ 5 :=
  ⟨rfl, by decide, by decide⟩

/-- C2: the claim says a full-flush descriptor makes the handler perform one
full local flush, no page invalidations, and terminate.  In
`ipi_remote_sfence_vma` the full flush is not followed by a return: for any
amount of fuel the loop has not exited, and with any positive fuel the
handler has already issued a page-granular invalidation after the full
flush. -/
theorem ipi_remote_sfence_vma_flush_all_diverges :
    ∀ fuel : Nat,
      (ipi_remote_sfence_vma ⟨0, SFENCE_VMA_FLUSH_ALL, 0⟩ fuel).2 = false
      ∧ TlbOp.flushAll ∈ (ipi_remote_sfence_vma ⟨0, SFENCE_VMA_FLUSH_ALL, 0⟩ fuel).1
      ∧ TlbOp.flushPage 0 ∈ (ipi_remote_sfence_vma ⟨0, SFENCE_VMA_FLUSH_ALL, 0⟩ (fuel + 1)).1 := by
  intro fuel
  refine ⟨?_, ?_, ?_⟩
  · show (sfence_vma_loop 0 SFENCE_VMA_FLUSH_ALL fuel 0).2 = false
    exact sfence_vma_loop_all_never_exits 0 fuel 0 (dvd_zero _)
      (by rw [word_size_eq]; omega)
  · simp [ipi_remote_sfence_vma]
  · have h0 : (0 : Nat) < SFENCE_VMA_FLUSH_ALL := by
      rw [flush_all_sentinel_eq]; omega
    simp [ipi_remote_sfence_vma, sfence_vma_loop_succ, h0]

/-- C3: the claim says a fresh context has `asid_slot = 0` and empty
`cache_mask` and `icache_stale_mask`.  `init_new_context` zeroes the ASID
slot but only calls `cpumask_empty` (an emptiness test) on `cache_mask` and
never touches `icache_stale_mask`: a context whose masks are non-empty on
entry (as after `dup_mm` copies the parent) keeps them non-empty. -/
theorem init_new_context_leaves_masks :
    (init_new_context ⟨⟨7, {1}, {0}⟩, ∅, 0⟩).1.context.asid = 0
    ∧ (init_new_context ⟨⟨7, {1}, {0}⟩, ∅, 0⟩).1.context.cache_mask = {0}
    ∧ (init_new_context ⟨⟨7, {1}, {0}⟩, ∅, 0⟩).1.context.icache_stale_mask = {1}
    ∧ ({0} : Finset Nat) ≠ (∅ : Finset Nat)
    ∧ ({1} : Finset Nat) ≠ (∅ : Finset Nat) :=
  ⟨rfl, rfl, rfl, by decide, by decide⟩

/-- C4: `flush_tlb_range` promotes to `flush_tlb_mm` exactly when the range
exceeds `T` pages, and otherwise broadcasts the sub-range whose IPI handler
issues one tagged invalidation per page; concretely with `tlbi_max_ops=4`
a 4-page range yields 4 page flushes and a 5-page range yields one
`flush_tlb_mm` broadcast. -/
theorem flush_tlb_range_threshold_policy :
    (∀ (mm : MmStruct) (start stop T : Nat),
        T * PAGE_SIZE < stop - start →
        flush_tlb_range mm start stop (T * PAGE_SIZE) = flush_tlb_mm mm)
    ∧ (∀ (mm : MmStruct) (start stop T : Nat),
        stop - start ≤ T * PAGE_SIZE →
        flush_tlb_range mm start stop (T * PAGE_SIZE)
          = remote_sfence_vma_asid mm.cpu_bitmap start (stop - start) 0)
    ∧ (∀ start size asid m : Nat,
        size ≤ m * PAGE_SIZE →
        (m = 0 ∨ (m - 1) * PAGE_SIZE < size) →
        start + m * PAGE_SIZE < WORD_SIZE →
        size ≠ SFENCE_VMA_FLUSH_ALL →
        ipi_remote_sfence_vma_asid ⟨start, size, asid⟩ (m + 1)
          = ((List.range m).map fun k => TlbOp.flushPageAsid (start + k * PAGE_SIZE) asid,
             true))
    ∧ setup_tlbi_max_ops (some 4) PAGE_SIZE = (0, 4 * PAGE_SIZE)
    ∧ (∀ mm : MmStruct,
        flush_tlb_range mm 4096 (4096 + 4 * PAGE_SIZE) (4 * PAGE_SIZE)
          = remote_sfence_vma_asid mm.cpu_bitmap 4096 (4 * PAGE_SIZE) 0)
    ∧ ipi_remote_sfence_vma_asid ⟨4096, 4 * PAGE_SIZE, 0⟩ 5
        = ([TlbOp.flushPageAsid 4096 0, TlbOp.flushPageAsid 8192 0,
            TlbOp.flushPageAsid 12288 0, TlbOp.flushPageAsid 16384 0], true)
    ∧ (∀ mm : MmStruct,
        flush_tlb_range mm 4096 (4096 + 5 * PAGE_SIZE) (4 * PAGE_SIZE)
          = flush_tlb_mm mm) := by
  refine ⟨?_, ?_, ?_, by decide, ?_, by decide, ?_⟩
  · intro mm start stop T h
    unfold flush_tlb_range
    rw [if_pos h]
  · intro mm start stop T h
    unfold flush_tlb_range
    rw [if_neg (by omega)]
  · intro start size asid m h1 h2 h3 h4
    have hPS : PAGE_SIZE = 4096 := rfl
    have hloop := sfence_vma_asid_loop_spec start size asid m 0
      (by rw [hPS] at h1 ⊢; omega)
      (by rcases h2 with h | h
          · exact Or.inl h
          · right; rw [hPS] at h ⊢; omega)
      (by rw [hPS] at h3 ⊢; omega)
      (by rw [hPS] at h1 h3; omega)
    unfold ipi_remote_sfence_vma_asid
    rw [if_neg h4, hloop]
    simp
  · intro mm
    unfold flush_tlb_range
    rw [if_neg (by norm_num [PAGE_SIZE])]
    norm_num [PAGE_SIZE]
  · intro mm
    unfold flush_tlb_range
    rw [if_pos (by norm_num [PAGE_SIZE])]

/-- C4 witness: the promotion branch at a concrete 3-page range with a
2-page threshold, and the page loop at a concrete 2-page descriptor. -/
theorem flush_tlb_range_threshold_policy_witness :
    flush_tlb_range ⟨⟨0, ∅, ∅⟩, {0}, 0⟩ 0 (3 * PAGE_SIZE) (2 * PAGE_SIZE)
      = flush_tlb_mm ⟨⟨0, ∅, ∅⟩, {0}, 0⟩
    ∧ ipi_remote_sfence_vma_asid ⟨8192, 2 * PAGE_SIZE, 3⟩ 3
        = ([TlbOp.flushPageAsid 8192 3, TlbOp.flushPageAsid 12288 3], true) := by
  constructor
  · have h := flush_tlb_range_threshold_policy.1 ⟨⟨0, ∅, ∅⟩, {0}, 0⟩ 0
      (3 * PAGE_SIZE) 2 (by norm_num [PAGE_SIZE])
    exact h
  · have h := flush_tlb_range_threshold_policy.2.2.1 8192 (2 * PAGE_SIZE) 3 2
      (by norm_num [PAGE_SIZE])
      (by right; norm_num [PAGE_SIZE])
      (by norm_num [PAGE_SIZE, WORD_SIZE])
      (by norm_num [PAGE_SIZE, SFENCE_VMA_FLUSH_ALL])
    rw [h]
    rfl

/-- C5: under the allocator invariants (probe hint at least 1, generation
word with zero low bits, and the stored slot being 0 or carrying non-zero
low bits as every prior allocation does), `alloc_asid` never returns a word
whose low `A` bits are zero. -/
theorem alloc_asid_never_returns_asid_zero
    (s : AsidState) (mm_asid : Nat)
    (hcur : 1 ≤ s.cur_idx)
    (hg : s.asid_generation % 2 ^ s.asidlen = 0)
    (hmm : mm_asid = 0 ∨ mm_asid % 2 ^ s.asidlen ≠ 0) :
    ∀ p, alloc_asid s mm_asid = some p → p.2 % 2 ^ s.asidlen ≠ 0 := by
  intro p hp
  unfold alloc_asid at hp
  dsimp only at hp
  split at hp
  next hz =>
    split at hp
    next hhit =>
      obtain rfl := Option.some.inj hp
      show (s.asid_generation ||| (mm_asid &&& (2 ^ s.asidlen - 1)))
        % 2 ^ s.asidlen ≠ 0
      rw [Nat.and_pow_two_sub_one_eq_mod,
        lor_low_mod hg (Nat.mod_lt _ (Nat.two_pow_pos _))]
      rcases hmm with h | h
      · exact absurd h hz
      · exact h
    next hhit =>
      exact alloc_asid_probe_low_bits_nonzero
        { s with reserved_asids := (check_reserved_asid s.reserved_asids mm_asid
            (s.asid_generation ||| (mm_asid &&& (2 ^ s.asidlen - 1)))).1 }
        s.asid_generation hcur hg hg p hp
  next hz =>
    exact alloc_asid_probe_low_bits_nonzero _ _ hcur hg hg p hp

/-- C5 witness: a concrete allocation returning `GEN_STEP | 1 = 5` with
`A = 2`, whose low bits are non-zero. -/
theorem alloc_asid_never_returns_asid_zero_witness :
    1 ≤ (⟨2, 4, [true, false, false, true], 1, [3], [0]⟩ : AsidState).cur_idx
    ∧ alloc_asid ⟨2, 4, [true, false, false, true], 1, [3], [0]⟩ 0
        = some (⟨2, 4, [true, true, false, true], 1, [3], [0]⟩, 5)
    ∧ (5 : Nat) % 2 ^ 2 ≠ 0 := by
  have h : alloc_asid (⟨2, 4, [true, false, false, true], 1, [3], [0]⟩ : AsidState) 0
      = some (⟨2, 4, [true, true, false, true], 1, [3], [0]⟩, 5) := by decide
  have h2 := alloc_asid_never_returns_asid_zero
    ⟨2, 4, [true, false, false, true], 1, [3], [0]⟩ 0
    (by decide) (by decide) (Or.inl rfl)
    (⟨2, 4, [true, true, false, true], 1, [3], [0]⟩, 5) h
  exact ⟨by decide, h, h2⟩

/-- C6: immediately after `new_asid_generation`, every CPU whose
`active_asids` was non-zero beforehand has that exact value (hence the same
low `A` bits) in `reserved_asids`, its low bits claimed in the bitmap, and
its `active_asids` exchanged to 0. -/
theorem new_asid_generation_preserves_reserved
    (s s2 : AsidState)
    (hlen : s.active_asids.length = s.reserved_asids.length)
    (hng : new_asid_generation s = some s2) :
    ∀ cpu, cpu < s.active_asids.length →
      s.active_asids.getD cpu 0 ≠ 0 →
      s2.reserved_asids.getD cpu 0 = s.active_asids.getD cpu 0
      ∧ s2.asid_map.getD (s.active_asids.getD cpu 0 % 2 ^ s.asidlen) false = true
      ∧ s2.active_asids.getD cpu 0 = 0 := by
  intro cpu hcpu ha
  unfold new_asid_generation at hng
  split at hng
  · cases hng
  · obtain rfl := Option.some.inj hng
    obtain ⟨-, -, h3⟩ := rollover_cpus_spec s.asidlen s.active_asids
      s.reserved_asids (List.replicate (2 ^ s.asidlen) false) hlen (by simp)
    exact h3 cpu hcpu ha

/-- C6 witness: a concrete two-CPU rollover with `A = 1`; CPU 0 was running
ASID word 3, which lands in its reserved slot, claims bitmap bit 1, and
leaves its active slot 0. -/
theorem new_asid_generation_preserves_reserved_witness :
    new_asid_generation ⟨1, 2, [true, true], 1, [3, 0], [0, 2]⟩
      = some ⟨1, 4, [true, true], 1, [0, 0], [3, 2]⟩
    ∧ ((⟨1, 4, [true, true], 1, [0, 0], [3, 2]⟩ : AsidState).reserved_asids.getD 0 0 = 3
       ∧ (⟨1, 4, [true, true], 1, [0, 0], [3, 2]⟩ : AsidState).asid_map.getD (3 % 2 ^ 1) false = true
       ∧ (⟨1, 4, [true, true], 1, [0, 0], [3, 2]⟩ : AsidState).active_asids.getD 0 0 = 0) := by
  have h : new_asid_generation (⟨1, 2, [true, true], 1, [3, 0], [0, 2]⟩ : AsidState)
      = some ⟨1, 4, [true, true], 1, [0, 0], [3, 2]⟩ := by decide
  have h2 := new_asid_generation_preserves_reserved
    ⟨1, 2, [true, true], 1, [3, 0], [0, 2]⟩
    ⟨1, 4, [true, true], 1, [0, 0], [3, 2]⟩ (by decide) h 0 (by decide) (by decide)
  exact ⟨h, h2⟩

/-- C7: `asids_init` claims the all-ones boot ASID bit and leaves every
reserved slot 0, and from any such first-generation state `alloc_asid`
never returns a word that is in the first generation and carries the
all-ones low bits. -/
theorem first_generation_never_allocates_boot_asid :
    (∀ hw_asidlen ncpus st, asids_init hw_asidlen ncpus = some st →
        st.asid_generation = 2 ^ st.asidlen
        ∧ (∀ r ∈ st.reserved_asids, r = 0)
        ∧ st.asid_map.getD (2 ^ st.asidlen - 1) false = true
        ∧ 1 ≤ st.cur_idx)
    ∧ (∀ (s : AsidState) (mm_asid : Nat),
        s.asid_generation = 2 ^ s.asidlen →
        (∀ r ∈ s.reserved_asids, r = 0) →
        s.asid_map.getD (2 ^ s.asidlen - 1) false = true →
        ∀ p, alloc_asid s mm_asid = some p →
          p.2 / 2 ^ s.asidlen = 1 →
          p.2 % 2 ^ s.asidlen ≠ 2 ^ s.asidlen - 1) := by
  constructor
  · intro A n st hst
    unfold asids_init at hst
    split at hst
    · cases hst
    · split at hst
      · cases hst
      next h2 =>
        obtain rfl := Option.some.inj hst
        refine ⟨rfl, ?_, ?_, le_refl 1⟩
        · intro r hr
          exact List.eq_of_mem_replicate hr
        · exact getD_set_true_self
            (by simp [Nat.sub_lt (Nat.two_pow_pos _) one_pos])
  · intro s mm_asid hgen hrsv hboot p hp
    unfold alloc_asid at hp
    dsimp only at hp
    split at hp
    next hz =>
      split at hp
      next hhit =>
        exfalso
        rw [check_reserved_no_hit hrsv hz] at hhit
        cases hhit
      next hhit =>
        exact alloc_asid_probe_first_gen
          { s with reserved_asids := (check_reserved_asid s.reserved_asids mm_asid
              (s.asid_generation ||| (mm_asid &&& (2 ^ s.asidlen - 1)))).1 }
          s.asid_generation hgen hgen hboot p hp
    next hz =>
      exact alloc_asid_probe_first_gen _ _ hgen hgen hboot p hp

/-- C7 witness: `asids_init` with `A = 2` and one CPU, followed by a
concrete first-generation allocation, which returns `4 | 1 = 5`, not the
reserved all-ones ASID 3. -/
theorem first_generation_never_allocates_boot_asid_witness :
    asids_init 2 1 = some ⟨2, 4, [false, false, false, true], 1, [3], [0]⟩
    ∧ (5 : Nat) % 2 ^ 2 ≠ 2 ^ 2 - 1 := by
  have h1 : asids_init 2 1 = some ⟨2, 4, [false, false, false, true], 1, [3], [0]⟩ := by
    decide
  have halloc : alloc_asid (⟨2, 4, [false, false, false, true], 1, [3], [0]⟩ : AsidState) 0
      = some (⟨2, 4, [false, true, false, true], 1, [3], [0]⟩, 5) := by decide
  have h2 := first_generation_never_allocates_boot_asid.2
    ⟨2, 4, [false, false, false, true], 1, [3], [0]⟩ 0 (by decide) (by decide) (by decide)
    (⟨2, 4, [false, true, false, true], 1, [3], [0]⟩, 5) halloc (by decide)
  exact ⟨h1, h2⟩

/-- C8: the `tlbi_max_ops` parameter handler accepts exactly the integers in
`[1, PTRS_PER_PTE)`, setting the threshold to `N` pages, and returns
`-EINVAL` leaving the threshold untouched on any other parse result. -/
theorem setup_tlbi_max_ops_policy :
    (∀ (N : Int) (threshold : Nat), 1 ≤ N → N < (PTRS_PER_PTE : Int) →
        setup_tlbi_max_ops (some N) threshold = (0, N.toNat * PAGE_SIZE))
    ∧ (∀ (v : Int) (threshold : Nat), v < 1 ∨ (PTRS_PER_PTE : Int) ≤ v →
        setup_tlbi_max_ops (some v) threshold = (-EINVAL, threshold))
    ∧ (∀ threshold : Nat, setup_tlbi_max_ops none threshold = (-EINVAL, threshold)) := by
  refine ⟨?_, ?_, ?_⟩
  · intro N t h1 h2
    simp only [setup_tlbi_max_ops, Option.getD_some]
    rw [if_neg (by omega)]
  · intro v t h
    simp only [setup_tlbi_max_ops, Option.getD_some]
    rw [if_pos (by omega)]
  · intro t
    simp only [setup_tlbi_max_ops, Option.getD_none]
    rw [if_pos (by norm_num [PTRS_PER_PTE])]

/-- C8 witness: in-range value 4 accepted with a 4-page threshold;
out-of-range values 512 and 0 rejected with the threshold unchanged. -/
theorem setup_tlbi_max_ops_policy_witness :
    setup_tlbi_max_ops (some 4) 4096 = (0, (4 : Int).toNat * PAGE_SIZE)
    ∧ setup_tlbi_max_ops (some 512) 4096 = (-EINVAL, 4096)
    ∧ setup_tlbi_max_ops (some 0) 4096 = (-EINVAL, 4096) :=
  ⟨setup_tlbi_max_ops_policy.1 4 4096 (by norm_num) (by norm_num [PTRS_PER_PTE]),
   setup_tlbi_max_ops_policy.2.1 512 4096 (by norm_num [PTRS_PER_PTE]),
   setup_tlbi_max_ops_policy.2.1 0 4096 (by norm_num)⟩

/-- C9 counterexample: the claim says every non-boot CPU bring-up reads the
hardware width and panics whenever it differs from the stored boot width.
With ASIDs disabled (`asidlen = 0`) and a CPU of width 9, the widths differ
but the function returns on the early path with no panic (and clears the
SATP ASID field instead). -/
theorem verify_cpu_asidlen_skip_counterexample :
    verify_cpu_asidlen 0 9 1 = (none, true) ∧ (9 : Nat) ≠ 0 :=
  ⟨rfl, by decide⟩

/-- C9 (amended): when ASIDs are enabled (`asidlen ≠ 0`), bring-up panics
with the payload `(cpu, x, A)` of the prescribed message exactly when the
CPU's width differs from the boot width, and no panic occurs when they
agree; when `asidlen = 0` the check is skipped entirely. -/
theorem verify_cpu_asidlen_enabled_policy
    (asidlen cpu_asidlen cpu_id : Nat) (h : asidlen ≠ 0) :
    (verify_cpu_asidlen asidlen cpu_asidlen cpu_id).1
      = (if cpu_asidlen ≠ asidlen then some (cpu_id, cpu_asidlen, asidlen) else none)
    ∧ (verify_cpu_asidlen asidlen cpu_asidlen cpu_id).2 = false := by
  unfold verify_cpu_asidlen
  rw [if_neg h]
  by_cases hc : cpu_asidlen ≠ asidlen
  · rw [if_pos hc, if_pos hc]
    exact ⟨rfl, rfl⟩
  · rw [if_neg hc, if_neg hc]
    exact ⟨rfl, rfl⟩

/-- C9 witness: boot width 16, secondary width 9 — the S5 scenario — panics
with payload `(1, 9, 16)`. -/
theorem verify_cpu_asidlen_enabled_policy_witness :
    (16 : Nat) ≠ 0
    ∧ (verify_cpu_asidlen 16 9 1).1
        = (if (9 : Nat) ≠ 16 then some (1, 9, 16) else none)
    ∧ (verify_cpu_asidlen 16 9 1).2 = false :=
  ⟨by decide, (verify_cpu_asidlen_enabled_policy 16 9 1 (by decide)).1,
   (verify_cpu_asidlen_enabled_policy 16 9 1 (by decide)).2⟩

/-- C10: with ASIDs enabled, `switch_mm` on distinct address spaces clears
the CPU's bit in `prev`'s `mm_cpumask` but leaves `prev`'s context —
`cache_mask`, `icache_stale_mask` and the ASID slot — entirely
unchanged. -/
theorem switch_mm_prev_frame
    (s : AsidState) (prev next : MmStruct) (cpu : Nat)
    (out : AsidState × MmStruct × MmStruct × SatpVal)
    (hA : s.asidlen ≠ 0)
    (hsw : switch_mm s prev next cpu = some out) :
    out.2.1.context.cache_mask = prev.context.cache_mask
    ∧ out.2.1.cpu_bitmap = prev.cpu_bitmap.erase cpu
    ∧ out.2.1.context.icache_stale_mask = prev.context.icache_stale_mask
    ∧ out.2.1.context.asid = prev.context.asid := by
  unfold switch_mm at hsw
  dsimp only at hsw
  rw [if_pos hA] at hsw
  cases hsw2 : switch_mm_asid s { next with cpu_bitmap := insert cpu next.cpu_bitmap } cpu with
  | none => rw [hsw2] at hsw; cases hsw
  | some res =>
    obtain ⟨s2, next2, satp⟩ := res
    rw [hsw2] at hsw
    dsimp only at hsw
    obtain rfl := Option.some.inj hsw
    exact ⟨rfl, rfl, rfl, rfl⟩

/-- C10 witness: a concrete fast-path switch with `A = 2`; `prev`'s
`cache_mask` stays `{0}` while its `mm_cpumask` bit for CPU 0 is cleared. -/
theorem switch_mm_prev_frame_witness :
    switch_mm ⟨2, 4, [true, false, false, true], 1, [5], [0]⟩
        ⟨⟨0, ∅, {0}⟩, {0}, 7⟩ ⟨⟨6, ∅, ∅⟩, ∅, 9⟩ 0
      = some (⟨2, 4, [true, false, false, true], 1, [6], [0]⟩,
          ⟨⟨0, ∅, {0}⟩, ∅, 7⟩, ⟨⟨6, ∅, {0}⟩, {0}, 9⟩, ⟨9, 6⟩)
    ∧ (⟨⟨0, ∅, {0}⟩, ∅, 7⟩ : MmStruct).context.cache_mask
        = (⟨⟨0, ∅, {0}⟩, {0}, 7⟩ : MmStruct).context.cache_mask
    ∧ (⟨⟨0, ∅, {0}⟩, ∅, 7⟩ : MmStruct).cpu_bitmap
        = (⟨⟨0, ∅, {0}⟩, {0}, 7⟩ : MmStruct).cpu_bitmap.erase 0 := by
  have h : switch_mm (⟨2, 4, [true, false, false, true], 1, [5], [0]⟩ : AsidState)
      ⟨⟨0, ∅, {0}⟩, {0}, 7⟩ ⟨⟨6, ∅, ∅⟩, ∅, 9⟩ 0
      = some (⟨2, 4, [true, false, false, true], 1, [6], [0]⟩,
          ⟨⟨0, ∅, {0}⟩, ∅, 7⟩, ⟨⟨6, ∅, {0}⟩, {0}, 9⟩, ⟨9, 6⟩) := by decide
  have h2 := switch_mm_prev_frame ⟨2, 4, [true, false, false, true], 1, [5], [0]⟩
    ⟨⟨0, ∅, {0}⟩, {0}, 7⟩ ⟨⟨6, ∅, ∅⟩, ∅, 9⟩ 0
    (⟨2, 4, [true, false, false, true], 1, [6], [0]⟩,
      ⟨⟨0, ∅, {0}⟩, ∅, 7⟩, ⟨⟨6, ∅, {0}⟩, {0}, 9⟩, ⟨9, 6⟩) (by decide) h
  exact ⟨h, h2.1, h2.2.1⟩

end RiscvAsid
